import Mathlib

/-!
Verification of the NFL ELO data stack against its specification.

The definitions below are shallow embeddings of the Python source:
* `calc_elo_diff` and its components embed
  `transform/models/nfl/prep/nfl_elo_rollforward.py` (function `calc_elo_diff`);
* `process_games` embeds the game loop of the dbt `model` function in the
  same file (ratings dictionary, missing-team error, context defaulting,
  pairwise rating update);
* `apply_mean_reversion`, `vegas_wins_to_elo` and `preseason_rating` embed
  `scripts/apply_preseason_mean_reversion.py`;
* `wilson_ci` embeds `scripts/show_playoff_probabilities.py`.

Python floats are modelled as real numbers.
-/

namespace NflStack

open Classical in
/-- `winner_elo_diff` from `calc_elo_diff` (nfl_elo_rollforward.py line 83):
adjusted home ELO is `home_elo + home_adv - contextual_adjustment`; the gap is
taken from the winner's perspective, the winner being the visiting team exactly
when `game_result == 1`. -/
noncomputable def winner_elo_diff (game_result home_elo visiting_elo home_adv
    contextual_adjustment : ℝ) : ℝ :=
  if game_result = 1 then visiting_elo - (home_elo + home_adv - contextual_adjustment)
  else (home_elo + home_adv - contextual_adjustment) - visiting_elo

/-- `margin_of_victory_multiplier` from `calc_elo_diff`
(nfl_elo_rollforward.py lines 89-91). -/
noncomputable def mov_multiplier (scoring_margin w_diff mov_multiplier_base
    mov_multiplier_divisor : ℝ) : ℝ :=
  Real.log (|scoring_margin| + 1) *
    (mov_multiplier_base / (w_diff * mov_multiplier_divisor + mov_multiplier_base))

/-- `expected_visiting_win` from `calc_elo_diff` (nfl_elo_rollforward.py line 94). -/
noncomputable def expected_visiting_win (home_elo visiting_elo home_adv
    contextual_adjustment elo_scale : ℝ) : ℝ :=
  1 / ((10 : ℝ) ^ (-(visiting_elo - home_elo - home_adv + contextual_adjustment) / elo_scale) + 1)

/-- `calc_elo_diff` from nfl_elo_rollforward.py lines 25-100:
`elo_change = k_factor * (game_result - expected_visiting_win) * margin_of_victory_multiplier`. -/
noncomputable def calc_elo_diff (game_result home_elo visiting_elo home_adv scoring_margin
    contextual_adjustment k_factor elo_scale mov_multiplier_base
    mov_multiplier_divisor : ℝ) : ℝ :=
  k_factor *
    (game_result -
      expected_visiting_win home_elo visiting_elo home_adv contextual_adjustment elo_scale) *
    mov_multiplier scoring_margin
      (winner_elo_diff game_result home_elo visiting_elo home_adv contextual_adjustment)
      mov_multiplier_base mov_multiplier_divisor

/-- One row of `nfl_latest_results` as consumed by the `model` loop
(nfl_elo_rollforward.py line 161). -/
structure GameRow where
  game_id : ℕ
  visiting_team : String
  home_team : String
  winning_team : String
  game_result : ℝ
  neutral_site : ℕ
  margin : ℝ

/-- The configuration parameters read at the top of `model`
(nfl_elo_rollforward.py lines 113-117). -/
structure EloConfig where
  home_adv : ℝ
  k_factor : ℝ
  elo_scale : ℝ
  mov_base : ℝ
  mov_divisor : ℝ

/-- One output row of `model` (nfl_elo_rollforward.py lines 143-154,
without the ingestion timestamp). -/
structure OutRow where
  game_id : ℕ
  visiting_team : String
  visiting_team_elo_rating : ℝ
  home_team : String
  home_team_elo_rating : ℝ
  winning_team : String
  elo_change : ℝ
  margin : ℝ
  contextual_adjustment : ℝ

/-- The `elo_change` computed for one game inside the `model` loop
(nfl_elo_rollforward.py lines 170-184): home advantage is suppressed on a
neutral site and a missing context adjustment defaults to 0. -/
noncomputable def game_delta (cfg : EloConfig) (ctx : ℕ → Option ℝ) (g : GameRow)
    (helo velo : ℝ) : ℝ :=
  calc_elo_diff g.game_result helo velo
    (if g.neutral_site = 1 then 0 else cfg.home_adv) g.margin
    ((ctx g.game_id).getD 0) cfg.k_factor cfg.elo_scale cfg.mov_base cfg.mov_divisor

/-- `working_elo[hteam] -= elo_change` (nfl_elo_rollforward.py line 191),
as read-modify-write on the ratings dictionary. -/
noncomputable def sub_rating (w : String → Option ℝ) (t : String) (d : ℝ) :
    String → Option ℝ :=
  Function.update w t ((w t).map (fun x => x - d))

/-- `working_elo[vteam] += elo_change` (nfl_elo_rollforward.py line 192). -/
noncomputable def add_rating (w : String → Option ℝ) (t : String) (d : ℝ) :
    String → Option ℝ :=
  Function.update w t ((w t).map (fun x => x + d))

/-- The pair update at the end of the `model` loop
(nfl_elo_rollforward.py lines 191-192), home first, then visiting. -/
noncomputable def apply_game_update (w : String → Option ℝ) (hteam vteam : String)
    (d : ℝ) : String → Option ℝ :=
  add_rating (sub_rating w hteam d) vteam d

/-- The game loop of `model` (nfl_elo_rollforward.py lines 161-193): walk the
completed games in order, raise on a missing team rating, default a missing
context adjustment to 0, emit one row per game with the pre-game ratings, and
apply the pair update. -/
noncomputable def process_games (cfg : EloConfig) (ctx : ℕ → Option ℝ) :
    (String → Option ℝ) → List GameRow →
      Except String ((String → Option ℝ) × List OutRow)
  | w, [] => Except.ok (w, [])
  | w, g :: gs =>
    match w g.home_team, w g.visiting_team with
    | none, _ => Except.error ("Missing ELO rating for team: " ++ g.home_team)
    | some _, none => Except.error ("Missing ELO rating for team: " ++ g.visiting_team)
    | some helo, some velo =>
      match process_games cfg ctx
          (apply_game_update w g.home_team g.visiting_team (game_delta cfg ctx g helo velo)) gs with
      | Except.ok (wf, rows) =>
          Except.ok (wf, ⟨g.game_id, g.visiting_team, velo, g.home_team, helo,
            g.winning_team, game_delta cfg ctx g helo velo, g.margin,
            (ctx g.game_id).getD 0⟩ :: rows)
      | Except.error e => Except.error e

/-- The source defaults: `nfl_elo_offset = 52`, `elo_k_factor = 20`,
`elo_scale = 400`, `mov_multiplier_base = 2.2`, `mov_multiplier_divisor = 0.001`
(nfl_elo_rollforward.py lines 113-117). -/
noncomputable def default_config : EloConfig := ⟨52, 20, 400, 2.2, 0.001⟩

/-- An empty context-adjustment table (every `game_id` missing). -/
def no_ctx : ℕ → Option ℝ := fun _ => none

/-- The specification's two-team one-game seed test: equal ratings 1500,
home wins by 7 at a non-neutral site. -/
def seed_game : GameRow := ⟨1, "VIS", "HOME", "HOME", 0, 0, 7⟩

open Classical in
/-- The update rule written exactly as the specification's §4.3 words it
(for the refinement comparison of claim C1):
`E_v = 1 / (1 + 10^(−(R_v − R_h − home_adv + ctx) / 400))`,
`gap = R_v − (R_h + home_adv − ctx)` when the visiting team won
(`actual = 1`) and `(R_h + home_adv − ctx) − R_v` otherwise,
`M = ln(|margin| + 1) · 2.2 / (0.001 · gap + 2.2)`,
`delta = K · (actual − E_v) · M`. -/
noncomputable def spec_delta (actual R_h R_v home_adv ctx m K : ℝ) : ℝ :=
  K * (actual - 1 / (1 + (10 : ℝ) ^ (-(R_v - R_h - home_adv + ctx) / 400))) *
    (Real.log (|m| + 1) * 2.2 /
      (0.001 * (if actual = 1 then R_v - (R_h + home_adv - ctx)
                else (R_h + home_adv - ctx) - R_v) + 2.2))

/-- `apply_mean_reversion` from apply_preseason_mean_reversion.py lines 36-56:
`elo_rating - reversion_factor * (elo_rating - mean)`. -/
noncomputable def apply_mean_reversion (elo_rating mean reversion_factor : ℝ) : ℝ :=
  elo_rating - reversion_factor * (elo_rating - mean)

/-- `vegas_wins_to_elo` from apply_preseason_mean_reversion.py lines 59-80:
`mean + (win_total - 8.5) * 25`. -/
noncomputable def vegas_wins_to_elo (win_total mean : ℝ) : ℝ :=
  mean + (win_total - 8.5) * 25

/-- The final preseason rating of one team in `main`
(apply_preseason_mean_reversion.py lines 188-219): with a market win total the
blend `(1/3) * regressed + (2/3) * vegas_elo`; the left merge leaves a missing
total as NaN and `fillna` falls back to the regressed rating alone. -/
noncomputable def preseason_rating (regressed : ℝ) (win_total : Option ℝ)
    (mean : ℝ) : ℝ :=
  match win_total with
  | some w => (1/3) * regressed + (2/3) * vegas_wins_to_elo w mean
  | none => regressed

/-- `wilson_ci` from show_playoff_probabilities.py lines 9-14:
`denominator = 1 + z²/n`, `center = p + z²/(2n)`,
`margin = z * sqrt(p(1-p)/n + z²/(4n²))`,
returning `((center - margin)/denominator, (center + margin)/denominator)`. -/
noncomputable def wilson_ci (p n z : ℝ) : ℝ × ℝ :=
  ((p + z ^ 2 / (2 * n) - z * Real.sqrt (p * (1 - p) / n + z ^ 2 / (4 * n ^ 2))) /
      (1 + z ^ 2 / n),
   (p + z ^ 2 / (2 * n) + z * Real.sqrt (p * (1 - p) / n + z ^ 2 / (4 * n ^ 2))) /
      (1 + z ^ 2 / n))

/-- The Wilson 95% score interval exactly as the specification's Aggregator
section (§4.7) writes it:
`(p̂ + z²/2n ± z·√(p̂(1−p̂)/n + z²/4n²)) / (1 + z²/n)` with `z = 1.96`
(for the refinement comparison of claim C8). -/
noncomputable def spec_wilson (p n : ℝ) : ℝ × ℝ :=
  ((p + 1.96 ^ 2 / (2 * n) -
      1.96 * Real.sqrt (p * (1 - p) / n + 1.96 ^ 2 / (4 * n ^ 2))) / (1 + 1.96 ^ 2 / n),
   (p + 1.96 ^ 2 / (2 * n) +
      1.96 * Real.sqrt (p * (1 - p) / n + 1.96 ^ 2 / (4 * n ^ 2))) / (1 + 1.96 ^ 2 / n))

/-- C1: with the default scale 400, MOV base 2.2 and divisor 0.001, the code's
`calc_elo_diff` computes exactly the specification's formula: the context
adjustment enters the expected-win exponent with a plus sign but the winner
gap with a minus sign. -/
theorem calc_elo_diff_eq_spec_delta (r R_h R_v home_adv m ctx K : ℝ) :
    calc_elo_diff r R_h R_v home_adv m ctx K 400 2.2 0.001 =
      spec_delta r R_h R_v home_adv ctx m K := by
  unfold calc_elo_diff spec_delta expected_visiting_win mov_multiplier winner_elo_diff
  by_cases h : r = 1 <;> simp only [if_pos, if_neg, h, if_true, if_false] <;> ring

/-- Updating one key of the ratings dictionary through `Option.map` never
creates or deletes a key. -/
theorem map_update_none (w : String → Option ℝ) (t : String) (f : ℝ → ℝ) (u : String) :
    Function.update w t ((w t).map f) u = none ↔ w u = none := by
  by_cases h : u = t
  · subst h; simp
  · simp [Function.update_apply, h]

/-- The pair update of a game never creates or deletes a key of the ratings
dictionary. -/
theorem apply_game_update_none (w : String → Option ℝ) (h v : String) (d : ℝ)
    (u : String) : apply_game_update w h v d u = none ↔ w u = none := by
  unfold apply_game_update add_rating sub_rating
  rw [map_update_none, map_update_none]

/-- Effect on the total of the stored ratings of mapping one present key. -/
theorem map_update_sum (s : Finset String) (w : String → Option ℝ) {t : String}
    (ht : t ∈ s) {x : ℝ} (hwt : w t = some x) (f : ℝ → ℝ) :
    ∑ u in s, (Function.update w t ((w t).map f) u).getD 0 =
      ∑ u in s, (w u).getD 0 + (f x - x) := by
  have hfun : ∀ u, (Function.update w t ((w t).map f) u).getD 0 =
      Function.update (fun u => (w u).getD 0) t (((w t).map f).getD 0) u := by
    intro u
    by_cases h : u = t
    · subst h; simp
    · simp [Function.update_apply, h]
  rw [Finset.sum_congr rfl fun u _ => hfun u, Finset.sum_update_of_mem ht,
    Finset.sum_eq_sum_diff_singleton_add ht (fun u => (w u).getD 0), hwt]
  simp only [Option.map_some', Option.getD_some]
  ring

/-- The pair update of a game is zero-sum over any team set containing both
teams: home loses `d`, visiting gains `d`. -/
theorem apply_game_update_sum (s : Finset String) (w : String → Option ℝ)
    {h v : String} (hh : h ∈ s) (hv : v ∈ s) {x y : ℝ}
    (hwh : w h = some x) (hwv : w v = some y) (d : ℝ) :
    ∑ u in s, (apply_game_update w h v d u).getD 0 = ∑ u in s, (w u).getD 0 := by
  unfold apply_game_update add_rating sub_rating
  obtain ⟨z, hz⟩ : ∃ z, Function.update w h ((w h).map (fun r => r - d)) v = some z := by
    by_cases hveq : v = h
    · subst hveq; exact ⟨x - d, by simp [hwh]⟩
    · exact ⟨y, by simp [Function.update_apply, hveq, hwv]⟩
  rw [map_update_sum s _ hv hz, map_update_sum s w hh hwh]
  simp
  try ring

/-- C2: if the rollforward loop succeeds, the sum of the stored ratings over
any team set containing every team that appears in the processed games is
exactly the sum before the rollforward: each game's update applies
`home -= delta` and `visiting += delta`, so each game and hence the whole
rollforward is zero-sum. -/
theorem rollforward_preserves_rating_sum (cfg : EloConfig) (ctx : ℕ → Option ℝ)
    (s : Finset String) (games : List GameRow) :
    ∀ (w : String → Option ℝ) (p : (String → Option ℝ) × List OutRow),
      (∀ g ∈ games, g.home_team ∈ s ∧ g.visiting_team ∈ s) →
      process_games cfg ctx w games = Except.ok p →
      ∑ t in s, (p.1 t).getD 0 = ∑ t in s, (w t).getD 0 := by
  induction games with
  | nil =>
      intro w p _ hok
      simp only [process_games, Except.ok.injEq] at hok
      rw [← hok]
  | cons g gs ih =>
      intro w p hmem hok
      rcases hh : w g.home_team with _ | helo
      · simp only [process_games, hh] at hok
        exact Except.noConfusion hok
      rcases hv : w g.visiting_team with _ | velo
      · simp only [process_games, hh, hv] at hok
        exact Except.noConfusion hok
      rcases hrec : process_games cfg ctx
          (apply_game_update w g.home_team g.visiting_team
            (game_delta cfg ctx g helo velo)) gs with e | q
      · simp only [process_games, hh, hv, hrec] at hok
        exact Except.noConfusion hok
      obtain ⟨wf, rows⟩ := q
      simp only [process_games, hh, hv, hrec, Except.ok.injEq] at hok
      have hsum := ih _ (wf, rows)
        (fun g' hg' => hmem g' (List.mem_cons_of_mem _ hg')) hrec
      rw [← hok]
      exact hsum.trans (apply_game_update_sum s w
        (hmem g (List.mem_cons_self g gs)).1 (hmem g (List.mem_cons_self g gs)).2
        hh hv _)

/-- Witness for C2: the two-team seed universe, one completed game; both teams
appear in the team set and the rollforward succeeds, so the theorem applies
and the rating sum is preserved. -/
theorem rollforward_preserves_rating_sum_witness :
    (∀ g ∈ [seed_game], g.home_team ∈ ({"HOME", "VIS"} : Finset String) ∧
        g.visiting_team ∈ ({"HOME", "VIS"} : Finset String)) ∧
    ∑ t in ({"HOME", "VIS"} : Finset String),
        ((apply_game_update (fun _ => some 1500) "HOME" "VIS"
          (game_delta default_config no_ctx seed_game 1500 1500)) t).getD 0 =
      ∑ t in ({"HOME", "VIS"} : Finset String),
        (((fun _ => some (1500 : ℝ)) t).getD 0) := by
  refine ⟨by simp [seed_game], ?_⟩
  exact rollforward_preserves_rating_sum default_config no_ctx {"HOME", "VIS"}
    [seed_game] (fun _ => some 1500)
    (apply_game_update (fun _ => some 1500) "HOME" "VIS"
        (game_delta default_config no_ctx seed_game 1500 1500),
      [⟨1, "VIS", 1500, "HOME", 1500, "HOME",
        game_delta default_config no_ctx seed_game 1500 1500, 7, 0⟩])
    (by simp [seed_game])
    (by simp [process_games, seed_game, no_ctx])

/-- The rollforward raises exactly when some listed game names a team that is
missing from the ratings dictionary (the pair update never changes the key
set, so a later game's lookup succeeds iff it succeeds in the initial
dictionary). -/
theorem process_games_error_iff (cfg : EloConfig) (ctx : ℕ → Option ℝ)
    (games : List GameRow) :
    ∀ w : String → Option ℝ,
      ((∃ e, process_games cfg ctx w games = Except.error e) ↔
        ∃ g ∈ games, w g.home_team = none ∨ w g.visiting_team = none) := by
  induction games with
  | nil => intro w; simp [process_games]
  | cons g gs ih =>
      intro w
      rcases hh : w g.home_team with _ | helo
      · constructor
        · intro _; exact ⟨g, List.mem_cons_self g gs, Or.inl hh⟩
        · intro _
          exact ⟨"Missing ELO rating for team: " ++ g.home_team,
            by simp [process_games, hh]⟩
      rcases hv : w g.visiting_team with _ | velo
      · constructor
        · intro _; exact ⟨g, List.mem_cons_self g gs, Or.inr hv⟩
        · intro _
          exact ⟨"Missing ELO rating for team: " ++ g.visiting_team,
            by simp [process_games, hh, hv]⟩
      have hdom := apply_game_update_none w g.home_team g.visiting_team
        (game_delta cfg ctx g helo velo)
      have hstep : ∀ e, process_games cfg ctx w (g :: gs) = Except.error e ↔
          process_games cfg ctx (apply_game_update w g.home_team g.visiting_team
            (game_delta cfg ctx g helo velo)) gs = Except.error e := by
        intro e
        simp only [process_games, hh, hv]
        rcases hrec : process_games cfg ctx (apply_game_update w g.home_team
            g.visiting_team (game_delta cfg ctx g helo velo)) gs with e' | q
        · simp only [hrec]
        · obtain ⟨wf, rows⟩ := q
          simp only [hrec]
          simp
      constructor
      · rintro ⟨e, he⟩
        obtain ⟨g', hg', hmiss⟩ := (ih _).mp ⟨e, (hstep e).mp he⟩
        refine ⟨g', List.mem_cons_of_mem _ hg', ?_⟩
        rcases hmiss with hm | hm
        · exact Or.inl ((hdom g'.home_team).mp hm)
        · exact Or.inr ((hdom g'.visiting_team).mp hm)
      · rintro ⟨g', hg', hmiss⟩
        rcases List.mem_cons.mp hg' with rfl | hg'
        · rcases hmiss with hm | hm
          · rw [hh] at hm; exact absurd hm (by simp)
          · rw [hv] at hm; exact absurd hm (by simp)
        · have hex : ∃ e, process_games cfg ctx (apply_game_update w g.home_team
              g.visiting_team (game_delta cfg ctx g helo velo)) gs = Except.error e := by
            refine (ih _).mpr ⟨g', hg', ?_⟩
            rcases hmiss with hm | hm
            · exact Or.inl ((hdom g'.home_team).mpr hm)
            · exact Or.inr ((hdom g'.visiting_team).mpr hm)
          obtain ⟨e, he⟩ := hex
          exact ⟨e, (hstep e).mpr he⟩

/-- A game whose `game_id` has no context-adjustment entry is processed
exactly as with an explicit adjustment of 0. -/
theorem process_games_ctx_none (cfg : EloConfig) (ctx : ℕ → Option ℝ)
    (w : String → Option ℝ) (g : GameRow) (hctx : ctx g.game_id = none) :
    process_games cfg ctx w [g] = process_games cfg (fun _ => some 0) w [g] := by
  rcases hh : w g.home_team with _ | helo <;>
    rcases hv : w g.visiting_team with _ | velo <;>
      simp [process_games, hh, hv, game_delta, hctx]

/-- C9: the rollforward raises an error exactly when some processed game's
home or visiting team has no rating (so no rows are emitted for that game),
and a game whose `game_id` has no context-adjustment entry is processed
normally with `ctx = 0`. -/
theorem rollforward_error_and_ctx_default (cfg : EloConfig) (ctx : ℕ → Option ℝ)
    (w : String → Option ℝ) (games : List GameRow) :
    ((∃ e, process_games cfg ctx w games = Except.error e) ↔
      ∃ g ∈ games, w g.home_team = none ∨ w g.visiting_team = none) ∧
    (∀ g : GameRow, ctx g.game_id = none →
      process_games cfg ctx w [g] = process_games cfg (fun _ => some 0) w [g]) :=
  ⟨process_games_error_iff cfg ctx games w,
    fun g hg => process_games_ctx_none cfg ctx w g hg⟩

/-- Witness for C9: with an empty ratings dictionary the seed game raises, and
with an empty context table it is processed as with `ctx = 0`. -/
theorem rollforward_error_and_ctx_default_witness :
    (∃ e, process_games default_config no_ctx (fun _ => none) [seed_game] =
      Except.error e) ∧
    process_games default_config no_ctx (fun _ => none) [seed_game] =
      process_games default_config (fun _ => some 0) (fun _ => none) [seed_game] := by
  have h := rollforward_error_and_ctx_default default_config no_ctx
    (fun _ => none) [seed_game]
  exact ⟨h.1.mpr ⟨seed_game, List.mem_singleton.mpr rfl, Or.inl rfl⟩,
    h.2 seed_game rfl⟩

/-- C4: a game with `margin = 0` produces `delta = 0` regardless of the game
result, both ratings, home advantage, context adjustment and K (and any scale,
MOV base and divisor): `ln(|0| + 1) = 0` annihilates the product. -/
theorem calc_elo_diff_margin_zero (r R_h R_v home_adv ctx K s b d : ℝ) :
    calc_elo_diff r R_h R_v home_adv 0 ctx K s b d = 0 := by
  unfold calc_elo_diff mov_multiplier
  simp

/-- Flipping the sign of the exponent complements the logistic expectation:
`1 / (10^(−x) + 1) = 1 − 1 / (10^x + 1)`. -/
theorem expected_flip (x : ℝ) :
    1 / ((10 : ℝ) ^ (-x) + 1) = 1 - 1 / ((10 : ℝ) ^ x + 1) := by
  have h1 : (0 : ℝ) < (10 : ℝ) ^ x := Real.rpow_pos_of_pos (by norm_num) x
  rw [Real.rpow_neg (by norm_num : (0 : ℝ) ≤ 10)]
  field_simp
  left
  ring

/-- The visiting expectation is strictly below 1. -/
theorem expected_visiting_win_lt_one (H V a c s : ℝ) :
    expected_visiting_win H V a c s < 1 := by
  unfold expected_visiting_win
  have h : (0 : ℝ) < (10 : ℝ) ^ (-(V - H - a + c) / s) :=
    Real.rpow_pos_of_pos (by norm_num) _
  rw [div_lt_one (by linarith)]
  linarith

/-- Counterexample to C3: with home rating 0, visiting rating 400, home
advantage 400, context 0, margin 7, K = 20 and `game_result = 1/2`, the
original call returns 0 (the adjusted expectation is exactly 1/2) while the
swapped call returns a strictly positive delta, so swapping home/visiting and
flipping `game_result` does not negate `calc_elo_diff`. -/
theorem swap_negation_counterexample :
    calc_elo_diff (1 - (1/2)) 400 0 400 7 0 20 400 2.2 0.001 ≠
      -calc_elo_diff (1/2) 0 400 400 7 0 20 400 2.2 0.001 := by
  have hRHS : calc_elo_diff (1/2) 0 400 400 7 0 20 400 2.2 0.001 = 0 := by
    unfold calc_elo_diff expected_visiting_win
    rw [show -(((400 : ℝ) - 0 - 400 + 0)) / 400 = 0 by norm_num, Real.rpow_zero]
    ring
  have h100 : (10 : ℝ) ^ (2 : ℝ) = 100 := by
    rw [show (2 : ℝ) = ((2 : ℕ) : ℝ) by norm_num, Real.rpow_natCast]
    norm_num
  have hLHS : 0 < calc_elo_diff (1 - (1/2)) 400 0 400 7 0 20 400 2.2 0.001 := by
    unfold calc_elo_diff expected_visiting_win mov_multiplier winner_elo_diff
    rw [if_neg (show ¬(1 - (1/2) : ℝ) = 1 by norm_num),
      show -(((0 : ℝ) - 400 - 400 + 0)) / 400 = 2 by norm_num, h100,
      show |(7 : ℝ)| + 1 = 8 by norm_num]
    have hlog : 0 < Real.log 8 := Real.log_pos (by norm_num)
    nlinarith [hlog]
  rw [hRHS]
  intro h
  rw [h] at hLHS
  simp at hLHS

/-- C3 amended: swapping home/visiting and flipping `game_result` negates the
delta for decisive results (`game_result ∈ {0, 1}`) provided the context
adjustment equals the home advantage (in particular for `home_adv = ctx = 0`);
with `home_adv ≠ ctx`, or for ties, the symmetry fails (see the
counterexample). -/
theorem swap_negation_amended (r H V a m K s b d : ℝ) (hr : r = 0 ∨ r = 1) :
    calc_elo_diff (1 - r) V H a m a K s b d =
      -calc_elo_diff r H V a m a K s b d := by
  rcases hr with rfl | rfl
  · unfold calc_elo_diff expected_visiting_win mov_multiplier winner_elo_diff
    rw [if_pos (show (1 - (0 : ℝ)) = 1 by norm_num),
      if_neg (show ¬(0 : ℝ) = 1 by norm_num),
      show -(((H : ℝ) - V - a + a)) / s = -(-((V : ℝ) - H - a + a) / s) by ring,
      expected_flip]
    ring
  · unfold calc_elo_diff expected_visiting_win mov_multiplier winner_elo_diff
    rw [if_neg (show ¬(1 - (1 : ℝ)) = 1 by norm_num),
      if_pos (show ((1 : ℝ)) = 1 by norm_num),
      show -(((H : ℝ) - V - a + a)) / s = -(-((V : ℝ) - H - a + a) / s) by ring,
      expected_flip]
    ring

/-- Witness for the amended C3: equal ratings 1500, margin 7, K = 20, with
`home_adv = ctx = 52` and a decisive visiting win. -/
theorem swap_negation_amended_witness :
    ((1 : ℝ) = 0 ∨ (1 : ℝ) = 1) ∧
    calc_elo_diff (1 - 1) 1500 1500 52 7 52 20 400 2.2 0.001 =
      -calc_elo_diff 1 1500 1500 52 7 52 20 400 2.2 0.001 :=
  ⟨Or.inr rfl, swap_negation_amended 1 1500 1500 52 7 20 400 2.2 0.001 (Or.inr rfl)⟩

/-- Counterexample to C5: a league in which all 32 teams end the season at
1600 does not keep its rating sum under the regression-only preseason update
with factor 1/3 toward 1505. -/
theorem mean_reversion_sum_counterexample :
    ∑ t : Fin 32, apply_mean_reversion ((fun _ => (1600 : ℝ)) t) 1505 (1/3) ≠
      ∑ t : Fin 32, ((fun _ => (1600 : ℝ)) t) := by
  simp [apply_mean_reversion, Finset.sum_const, Finset.card_univ]
  norm_num

/-- C5 amended: the regression-only preseason update changes the league rating
sum by `−f · (Σ R − 32·1505)`; the sum is preserved exactly when `f = 0` or
the ratings already sum to `32 · 1505` (mean exactly 1505), not for every
rating vector. -/
theorem mean_reversion_sum_amended (R : Fin 32 → ℝ) (f : ℝ) :
    (∑ t, apply_mean_reversion (R t) 1505 f) =
      (∑ t, R t) - f * ((∑ t, R t) - 32 * 1505) ∧
    ((∑ t, apply_mean_reversion (R t) 1505 f) = ∑ t, R t ↔
      f = 0 ∨ (∑ t, R t) = 32 * 1505) := by
  have h1 : (∑ t, apply_mean_reversion (R t) 1505 f) =
      (∑ t, R t) - f * ((∑ t, R t) - 32 * 1505) := by
    unfold apply_mean_reversion
    rw [Finset.sum_sub_distrib, ← Finset.mul_sum, Finset.sum_sub_distrib,
      Finset.sum_const, Finset.card_univ, Fintype.card_fin, nsmul_eq_mul]
    push_cast
    ring
  refine ⟨h1, ?_⟩
  rw [h1, sub_eq_self, mul_eq_zero, sub_eq_zero]

/-- C7: with the default mean 1505, a team with a market win total `W` gets
the blend `(1/3) · R' + (2/3) · (1505 + (W − 8.5) · 25)` of its regressed
rating `R'` with the market-implied rating, and a team with no market total
keeps `R'` alone. -/
theorem preseason_blend_formula (R W : ℝ) :
    preseason_rating R (some W) 1505 =
      (1/3) * R + (2/3) * (1505 + (W - 8.5) * 25) ∧
    preseason_rating R none 1505 = R :=
  ⟨rfl, rfl⟩

/-- C8: for every proportion in [0, 1] and positive sample size, `wilson_ci`
at `z = 1.96` returns exactly the Wilson 95% score interval as the
specification's Aggregator section defines it. -/
theorem wilson_ci_matches_spec (p n : ℝ) (hp : 0 ≤ p ∧ p ≤ 1) (hn : 0 < n) :
    wilson_ci p n 1.96 = spec_wilson p n := rfl

/-- Witness for C8 at `p = 1/2`, `n = 100`. -/
theorem wilson_ci_matches_spec_witness :
    ((0 : ℝ) ≤ 1/2 ∧ (1/2 : ℝ) ≤ 1) ∧ (0 : ℝ) < 100 ∧
      wilson_ci (1/2) 100 1.96 = spec_wilson (1/2) 100 :=
  ⟨⟨by norm_num, by norm_num⟩, by norm_num,
    wilson_ci_matches_spec (1/2) 100 ⟨by norm_num, by norm_num⟩ (by norm_num)⟩

/-- C10: the MOV denominator `gap * 0.001 + 2.2` is unguarded: it is positive
for every winner-perspective gap above −2200, it is exactly zero at
gap = −2200 (a division by zero in the source), a concrete
`calc_elo_diff` input realizes gap = −2200, and below −2200 the MOV
multiplier turns negative, reversing the sign of the delta (a visiting win
with positive margin then yields a negative delta). -/
theorem mov_denominator_unguarded :
    (∀ gap : ℝ, -2200 < gap → 0 < gap * 0.001 + 2.2) ∧
    ((-2200 : ℝ) * 0.001 + 2.2 = 0) ∧
    winner_elo_diff 1 0 0 2200 0 = -2200 ∧
    (∀ gap m : ℝ, gap < -2200 → 0 < m → mov_multiplier m gap 2.2 0.001 < 0) ∧
    (∀ H V a c K m : ℝ, 0 < K → 0 < m → winner_elo_diff 1 H V a c < -2200 →
      calc_elo_diff 1 H V a m c K 400 2.2 0.001 < 0) := by
  have hmov : ∀ gap m : ℝ, gap < -2200 → 0 < m →
      mov_multiplier m gap 2.2 0.001 < 0 := by
    intro gap m hgap hm
    unfold mov_multiplier
    have habs : 0 < |m| := abs_pos.mpr hm.ne'
    have hlog : 0 < Real.log (|m| + 1) := Real.log_pos (by linarith)
    have hden : gap * 0.001 + 2.2 < 0 := by nlinarith
    exact mul_neg_of_pos_of_neg hlog (div_neg_of_pos_of_neg (by norm_num) hden)
  refine ⟨?_, by norm_num, ?_, hmov, ?_⟩
  · intro gap hgap; nlinarith
  · unfold winner_elo_diff
    rw [if_pos rfl]
    norm_num
  · intro H V a c K m hK hm hgap
    have hE : expected_visiting_win H V a c 400 < 1 :=
      expected_visiting_win_lt_one H V a c 400
    have hM := hmov _ m hgap hm
    unfold calc_elo_diff
    exact mul_neg_of_pos_of_neg (mul_pos hK (by linarith)) hM

/-- Witness for C10: the denominator is positive at gap 0, the multiplier is
negative at gap −3000 with margin 7, and a visiting win across a gap of −2300
yields a negative delta. -/
theorem mov_denominator_unguarded_witness :
    (0 : ℝ) < 0 * 0.001 + 2.2 ∧ mov_multiplier 7 (-3000) 2.2 0.001 < 0 ∧
      calc_elo_diff 1 0 0 2300 7 0 20 400 2.2 0.001 < 0 :=
  ⟨mov_denominator_unguarded.1 0 (by norm_num),
    mov_denominator_unguarded.2.2.2.1 (-3000) 7 (by norm_num) (by norm_num),
    mov_denominator_unguarded.2.2.2.2 0 0 2300 0 20 7 (by norm_num) (by norm_num)
      (by norm_num [winner_elo_diff])⟩

/-- Closed form of the seed-game delta (equal ratings 1500, home win by 7,
home advantage 52, K = 20, no context): `−(11000/563) · ln 8 / (10^0.13 + 1)`. -/
theorem seed_delta_eq :
    calc_elo_diff 0 1500 1500 52 7 0 20 400 2.2 0.001 =
      -((11000/563) * Real.log 8 / ((10 : ℝ) ^ ((13 : ℝ)/100) + 1)) := by
  unfold calc_elo_diff expected_visiting_win mov_multiplier winner_elo_diff
  rw [if_neg (show ¬(0 : ℝ) = 1 by norm_num),
    show -(((1500 : ℝ) - 1500 - 52 + 0)) / 400 = (13 : ℝ)/100 by norm_num,
    show |(7 : ℝ)| + 1 = 8 by norm_num]
  ring

/-- Rational bounds for `10^0.13`, via the 100th power. -/
theorem seed_rpow_bounds :
    1.3489 < (10 : ℝ) ^ ((13 : ℝ)/100) ∧ (10 : ℝ) ^ ((13 : ℝ)/100) < 1.3491 := by
  have hx : (0 : ℝ) < (10 : ℝ) ^ ((13 : ℝ)/100) :=
    Real.rpow_pos_of_pos (by norm_num) _
  have hpow : ((10 : ℝ) ^ ((13 : ℝ)/100)) ^ (100 : ℕ) = (10 : ℝ) ^ (13 : ℕ) := by
    rw [← Real.rpow_natCast ((10 : ℝ) ^ ((13 : ℝ)/100)) 100,
      ← Real.rpow_mul (by norm_num : (0 : ℝ) ≤ 10),
      show (13 : ℝ)/100 * ((100 : ℕ) : ℝ) = ((13 : ℕ) : ℝ) by norm_num,
      Real.rpow_natCast]
  constructor
  · apply lt_of_pow_lt_pow_left 100 (le_of_lt hx)
    rw [hpow]
    norm_num
  · apply lt_of_pow_lt_pow_left 100 (by norm_num : (0 : ℝ) ≤ 1.3491)
    rw [hpow]
    norm_num

/-- Rational bounds for `ln 8 = 3 ln 2`. -/
theorem seed_log_bounds :
    2.0794415409 < Real.log 8 ∧ Real.log 8 < 2.0794415424 := by
  rw [show (8 : ℝ) = 2 ^ (3 : ℕ) by norm_num, Real.log_pow]
  constructor
  · have := Real.log_two_gt_d9
    push_cast
    linarith
  · have := Real.log_two_lt_d9
    push_cast
    linarith

/-- The seed-game delta lies in (−17.30, −17.29). -/
theorem seed_delta_bounds :
    -17.30 < calc_elo_diff 0 1500 1500 52 7 0 20 400 2.2 0.001 ∧
      calc_elo_diff 0 1500 1500 52 7 0 20 400 2.2 0.001 < -17.29 := by
  obtain ⟨hx1, hx2⟩ := seed_rpow_bounds
  obtain ⟨hl1, hl2⟩ := seed_log_bounds
  have hxpos : (0 : ℝ) < (10 : ℝ) ^ ((13 : ℝ)/100) + 1 := by
    have := Real.rpow_pos_of_pos (show (0 : ℝ) < 10 by norm_num) ((13 : ℝ)/100)
    linarith
  rw [seed_delta_eq]
  constructor
  · rw [neg_lt_neg_iff, div_lt_iff hxpos]
    linarith
  · rw [neg_lt_neg_iff, lt_div_iff hxpos]
    linarith

/-- Counterexample to C6: on the two-team seed game (equal ratings 1500, home
wins by 7, home_adv 52, K 20, no context) the code's delta is more than 5
points away from the specification's expected ≈ −11.47 (it is ≈ −17.30). -/
theorem seed_game_delta_counterexample :
    |calc_elo_diff 0 1500 1500 52 7 0 20 400 2.2 0.001 - (-11.47)| > 5 := by
  have h := seed_delta_bounds
  rw [gt_iff_lt, lt_abs]
  right
  linarith [h.2]

/-- C6 amended: on the seed game the code's delta lies in (−17.30, −17.29)
(so ≈ −17.30, not −11.47), and running the rollforward on the two-team
universe yields home rating `1500 − delta` (≈ 1517.30) and visiting rating
`1500 + delta` (≈ 1482.70). -/
theorem seed_game_delta_amended :
    (-17.30 < calc_elo_diff 0 1500 1500 52 7 0 20 400 2.2 0.001 ∧
      calc_elo_diff 0 1500 1500 52 7 0 20 400 2.2 0.001 < -17.29) ∧
    ∃ p : (String → Option ℝ) × List OutRow,
      process_games default_config no_ctx
          (fun t => if t = "HOME" then some 1500 else
            if t = "VIS" then some 1500 else none) [seed_game] = Except.ok p ∧
        (p.1 "HOME").getD 0 =
          1500 - calc_elo_diff 0 1500 1500 52 7 0 20 400 2.2 0.001 ∧
        (p.1 "VIS").getD 0 =
          1500 + calc_elo_diff 0 1500 1500 52 7 0 20 400 2.2 0.001 := by
  refine ⟨seed_delta_bounds,
    ⟨(apply_game_update
        (fun t => if t = "HOME" then some 1500 else
          if t = "VIS" then some 1500 else none) "HOME" "VIS"
        (game_delta default_config no_ctx seed_game 1500 1500),
      [⟨1, "VIS", 1500, "HOME", 1500, "HOME",
        game_delta default_config no_ctx seed_game 1500 1500, 7, 0⟩]),
    ?_, ?_, ?_⟩⟩
  · simp [process_games, seed_game, no_ctx]
  · simp [apply_game_update, add_rating, sub_rating, Function.update_apply,
      game_delta, seed_game, no_ctx, default_config]
  · simp [apply_game_update, add_rating, sub_rating, Function.update_apply,
      game_delta, seed_game, no_ctx, default_config]

end NflStack
